import Mathlib

/-!
Verification of the SignalingServer repository: a shallow embedding of the
STUN address-discovery codec and one-shot client (`src/stun.js`) and of the
room-based WebSocket signaling relay (`src/server.js`), with theorems
settling the specification claims about them.
-/

set_option autoImplicit false

namespace Stun

/-! ## Constants from `src/stun.js` -/

def MAGIC_COOKIE : Nat := 0x2112A442
def BINDING_REQUEST_TYPE : Nat := 0x0001
def BINDING_RESPONSE_TYPE : Nat := 0x0101
def XOR_MAPPED_ADDRESS_TYPE : Nat := 0x0020

/-!
## Buffer reads

A Node `Buffer` is modelled as a `List Nat` of byte cells; reads reduce each
cell mod 256 since a buffer cell can only ever hold a byte.  `readUInt8` /
`readUInt16BE` throw `ERR_OUT_OF_RANGE` in Node when the read crosses the end
of the buffer; that failure is modelled as the `rangeError` case.
-/

inductive StunError where
  /-- The `Invalid STUN response` error thrown when the leading type field is
  not the binding-response constant. -/
  | malformedResponse
  /-- The `No XOR-MAPPED-ADDRESS found in STUN response` error thrown when the
  attribute walk exhausts the buffer. -/
  | attributeNotFound
  /-- Node's `ERR_OUT_OF_RANGE` thrown by a buffer read past the end. -/
  | rangeError
deriving DecidableEq, Repr

structure ResolvedAddress where
  ip : String
  port : Nat
deriving DecidableEq, Repr

def readUInt8 (msg : List Nat) (off : Nat) : Except StunError Nat :=
  match msg[off]? with
  | some b => .ok (b % 256)
  | none => .error .rangeError

def readUInt16BE (msg : List Nat) (off : Nat) : Except StunError Nat :=
  match msg[off]?, msg[off + 1]? with
  | some a, some b => .ok ((a % 256) * 256 + b % 256)
  | _, _ => .error .rangeError

/-- Padding that rounds an attribute length up to a 4-byte boundary:
`attrLength % 4 ? 4 - attrLength % 4 : 0` in the source. -/
def pad4 (n : Nat) : Nat := if n % 4 = 0 then 0 else 4 - n % 4

/-- Byte `i` (most significant first) of the magic cookie:
`(MAGIC_COOKIE >>> (24 - i * 8)) & 0xFF` in the source. -/
def magicByte (i : Nat) : Nat := (MAGIC_COOKIE >>> (24 - i * 8)) &&& 0xFF

/-- The loop decoding the four XOR'd address bytes at `offset + 8 .. offset + 11`:
each byte is XOR'd with the corresponding byte of the magic cookie. -/
def decodeIpBytes (msg : List Nat) (offset : Nat) : Except StunError (List Nat) :=
  match readUInt8 msg (offset + 8) with
  | .error e => .error e
  | .ok e0 =>
    match readUInt8 msg (offset + 9) with
    | .error e => .error e
    | .ok e1 =>
      match readUInt8 msg (offset + 10) with
      | .error e => .error e
      | .ok e2 =>
        match readUInt8 msg (offset + 11) with
        | .error e => .error e
        | .ok e3 =>
          .ok [e0 ^^^ magicByte 0, e1 ^^^ magicByte 1, e2 ^^^ magicByte 2, e3 ^^^ magicByte 3]

/-- The attribute walk of `decodeXorAddress` in `src/stun.js`, starting from a
given offset: while `offset < msg.length`, read the attribute type and length;
on the XOR-MAPPED-ADDRESS type read the family byte, the XOR'd port and the
four XOR'd address bytes and return the decoded address; otherwise advance by
`4 + attrLength + pad` and continue; falling off the end raises
`attributeNotFound`. -/
def decodeXorAddress (msg : List Nat) (offset : Nat) : Except StunError ResolvedAddress :=
  if _h : offset < msg.length then
    match readUInt16BE msg offset with
    | .error e => .error e
    | .ok attrType =>
      match readUInt16BE msg (offset + 2) with
      | .error e => .error e
      | .ok attrLength =>
        if attrType = XOR_MAPPED_ADDRESS_TYPE then
          match readUInt8 msg (offset + 5) with
          | .error e => .error e
          | .ok _family =>
            match readUInt16BE msg (offset + 6) with
            | .error e => .error e
            | .ok xPort =>
              match decodeIpBytes msg offset with
              | .error e => .error e
              | .ok ipBytes =>
                .ok { ip := String.intercalate "." (ipBytes.map toString)
                      port := xPort ^^^ (MAGIC_COOKIE >>> 16) }
        else
          decodeXorAddress msg (offset + (4 + attrLength + pad4 attrLength))
  else
    .error .attributeNotFound
termination_by msg.length - offset
decreasing_by
  simp_wf
  omega

/-- The response handling in `getPublicAddress`: verify the leading 16-bit
field is the binding-response type (`Invalid STUN response` otherwise), then
decode the XOR-MAPPED-ADDRESS attribute starting past the 20-byte header. -/
def decodeResponse (msg : List Nat) : Except StunError ResolvedAddress :=
  match readUInt16BE msg 0 with
  | .error e => .error e
  | .ok t =>
    if t = BINDING_RESPONSE_TYPE then decodeXorAddress msg 20
    else .error .malformedResponse

/-!
## Response construction

The repository only decodes responses (a real STUN server builds them), so the
well-formed response used by the round-trip and padding claims is built here
following the wire layout the spec describes.
-/

/-- The XOR'd port: the port XOR'd with the high 16 bits of the magic cookie. -/
def xorPort (port : Nat) : Nat := port ^^^ (MAGIC_COOKIE >>> 16)

/-- Modelled from the spec: an XOR-MAPPED-ADDRESS TLV attribute (type `0x0020`,
length 8) whose value is the reserved byte, the IPv4 family byte `0x01`, the
port XOR'd with the high 16 bits of the magic cookie, and the four address
octets each XOR'd with the corresponding magic-cookie byte, most significant
first. -/
def encodeXorMappedAddress (b0 b1 b2 b3 port : Nat) : List Nat :=
  [0x00, 0x20, 0x00, 0x08,
   0x00, 0x01, xorPort port / 256, xorPort port % 256,
   b0 ^^^ 0x21, b1 ^^^ 0x12, b2 ^^^ 0xA4, b3 ^^^ 0x42]

/-- Modelled from the spec: the fixed 20-byte response header (binding-response
type `0x0101`, body length, magic cookie, 12-byte transaction id). -/
def stunResponseHeader (bodyLen : Nat) : List Nat :=
  [0x01, 0x01, bodyLen / 256, bodyLen % 256, 0x21, 0x12, 0xA4, 0x42] ++ List.replicate 12 0

/-- Modelled from the spec: a well-formed binding response carrying exactly one
XOR-MAPPED-ADDRESS attribute with the given octets and port. -/
def encodeResponse (b0 b1 b2 b3 port : Nat) : List Nat :=
  stunResponseHeader 12 ++ encodeXorMappedAddress b0 b1 b2 b3 port

/-- Modelled from the spec: a well-formed binding response carrying first an
unrelated attribute with the given 16-bit type (as two bytes), declared length
3 (so one padding byte `vp`) and then the XOR-MAPPED-ADDRESS attribute. -/
def encodeResponseWithExtra (t0 t1 v0 v1 v2 vp b0 b1 b2 b3 port : Nat) : List Nat :=
  stunResponseHeader 20 ++ [t0, t1, 0x00, 0x03, v0, v1, v2, vp] ++
    encodeXorMappedAddress b0 b1 b2 b3 port

/-!
## Discovery client (`getPublicAddress`)

The client runs on Node's single-threaded event loop: the inbound-datagram
handler, the socket-error handler and the timeout callback execute one after
another in whatever order the events arrive.  A transaction is therefore
modelled as a fold of the handlers (taken verbatim from the source) over an
arbitrary sequence of arriving events.  `closeCalls` counts how many times
`socket.close()` was actually invoked, and `settled` records the promise's
first resolution/rejection (later `resolve`/`reject` calls are no-ops, which
is the semantics of a JS promise).
-/

inductive StunOutcome where
  | resolved (r : ResolvedAddress)
  | rejectedDecode (e : StunError)
  | rejectedTransport
  | rejectedTimeout
deriving DecidableEq, Repr

structure ClientState where
  isClosed : Bool
  closeCalls : Nat
  settled : Option StunOutcome
deriving DecidableEq, Repr

def initClient : ClientState := { isClosed := false, closeCalls := 0, settled := none }

/-- `closeSocket` from the source: closes the socket only when the `isClosed`
flag is not yet set. -/
def closeSocket (s : ClientState) : ClientState :=
  if s.isClosed then s
  else { s with isClosed := true, closeCalls := s.closeCalls + 1 }

/-- A `resolve`/`reject` call on the promise: only the first one settles it. -/
def settle (s : ClientState) (o : StunOutcome) : ClientState :=
  match s.settled with
  | some _ => s
  | none => { s with settled := some o }

inductive StunEvent where
  /-- An inbound datagram delivered to the `message` handler. -/
  | message (buf : List Nat)
  /-- A socket error delivered to the `error` handler. -/
  | socketError
  /-- The 3000 ms timeout callback firing. -/
  | timeout

/-- The outcome an event produces when it is the first to act. -/
def eventOutcome : StunEvent → StunOutcome
  | .message buf =>
    match decodeResponse buf with
    | .ok r => .resolved r
    | .error e => .rejectedDecode e
  | .socketError => .rejectedTransport
  | .timeout => .rejectedTimeout

/-- One event-loop callback of `getPublicAddress`: the `message` handler
decodes and then closes + resolves (or closes + rejects on a decode error);
the `error` handler rejects and then closes; the timeout closes and rejects. -/
def stepClient (s : ClientState) : StunEvent → ClientState
  | .message buf =>
    match decodeResponse buf with
    | .ok r => settle (closeSocket s) (.resolved r)
    | .error e => settle (closeSocket s) (.rejectedDecode e)
  | .socketError => closeSocket (settle s .rejectedTransport)
  | .timeout => settle (closeSocket s) .rejectedTimeout

/-- A whole transaction: the handlers run over the arriving events in order. -/
def runClient (evs : List StunEvent) : ClientState := evs.foldl stepClient initClient

/-- The dotted-quad string of four address octets, as produced by
`ipBytes.join('.')`. -/
def ipString (b0 b1 b2 b3 : Nat) : String :=
  String.intercalate "." [toString b0, toString b1, toString b2, toString b3]

/-- The attribute walk from a given offset exhausts the buffer without ever
finding (or failing to read past) an XOR-MAPPED-ADDRESS attribute: every
visited attribute has a readable type and length, a type different from
`0x0020`, and the walk steps by `4 + length + padding` until the offset
reaches the end of the buffer. -/
inductive WalkExhausts (msg : List Nat) : Nat → Prop where
  | done (off : Nat) : msg.length ≤ off → WalkExhausts msg off
  | step (off t len : Nat) : off < msg.length →
      readUInt16BE msg off = .ok t → t ≠ XOR_MAPPED_ADDRESS_TYPE →
      readUInt16BE msg (off + 2) = .ok len →
      WalkExhausts msg (off + (4 + len + pad4 len)) →
      WalkExhausts msg off

/-- The leading 16-bit field of a buffer (defined when it has two bytes). -/
def leadType (msg : List Nat) : Nat :=
  ((msg[0]?.getD 0) % 256) * 256 + (msg[1]?.getD 0) % 256

end Stun

namespace Relay

/-!
## The signaling relay (`src/server.js`)

Connections (`ws` handles) are modelled as naturals.  The `rooms` object is an
insertion-ordered string-keyed map, modelled as an association list with the
JS object operations: assignment replaces an existing key in place or appends
a new one, `delete` removes the key.  The `ws.roomId` expando property is a
second association list from connection to room id.  A JS property lookup with
an `undefined` key coerces the key to the string `"undefined"`, captured by
`jsKey`.  Sends are not performed; each handler returns the list of
`(recipient, message)` pairs it would send, in order.
-/

abbrev Conn := Nat

/-- A parsed inbound JSON message: its `type` string and the `roomId` /
`username` fields, `none` when the field is absent (`undefined`). -/
structure InMsg where
  type : String
  roomId : Option String
  username : Option String
deriving DecidableEq, Repr

inductive OutMsg where
  | roomCreated (roomId : String)
  | userJoined (username : Option String)
  | startWebrtc
  | errorMsg (message : String)
  /-- A relayed signaling message, forwarded verbatim. -/
  | forward (data : InMsg)
deriving DecidableEq, Repr

abbrev Rooms := List (String × List Conn)
abbrev Refs := List (Conn × String)

def lookupRoom (rooms : Rooms) (k : String) : Option (List Conn) :=
  match rooms with
  | [] => none
  | (k', l) :: rest => if k' = k then some l else lookupRoom rest k

/-- JS object assignment `rooms[k] = l`: overwrite in place or append. -/
def setRoom (rooms : Rooms) (k : String) (l : List Conn) : Rooms :=
  match rooms with
  | [] => [(k, l)]
  | (k', l') :: rest => if k' = k then (k, l) :: rest else (k', l') :: setRoom rest k l

/-- JS `delete rooms[k]`. -/
def deleteRoom (rooms : Rooms) (k : String) : Rooms :=
  match rooms with
  | [] => []
  | (k', l') :: rest => if k' = k then rest else (k', l') :: deleteRoom rest k

def lookupRef (refs : Refs) (c : Conn) : Option String :=
  match refs with
  | [] => none
  | (c', k) :: rest => if c' = c then some k else lookupRef rest c

/-- Assignment of the `ws.roomId` expando property. -/
def setRef (refs : Refs) (c : Conn) (k : String) : Refs :=
  match refs with
  | [] => [(c, k)]
  | (c', k') :: rest => if c' = c then (c, k) :: rest else (c', k') :: setRef rest c k

/-- A JS property access with a possibly-`undefined` key: `undefined` is
coerced to the property name `"undefined"`. -/
def jsKey (r : Option String) : String := r.getD "undefined"

structure ServerState where
  rooms : Rooms
  refs : Refs
deriving DecidableEq, Repr

def initialState : ServerState := { rooms := [], refs := [] }

/-- The `create-room` branch: store a fresh room holding only the sender, set
the sender's `roomId` back-reference, reply `room-created` to the sender. -/
def handleCreateRoom (ws : Conn) (newId : String) (st : ServerState) :
    ServerState × List (Conn × OutMsg) :=
  ({ rooms := setRoom st.rooms newId [ws], refs := setRef st.refs ws newId },
   [(ws, .roomCreated newId)])

/-- The `join-room` branch: when the room exists, append the sender, set the
back-reference, send `user-joined` to every open participant of the grown
list, and send `start-webrtc` to the first participant when the list now has
at least two entries; otherwise reply a `Room not found` error to the sender. -/
def handleJoinRoom (isOpen : Conn → Bool) (ws : Conn) (data : InMsg) (st : ServerState) :
    ServerState × List (Conn × OutMsg) :=
  let k := jsKey data.roomId
  match lookupRoom st.rooms k with
  | some l =>
    let grown := l ++ [ws]
    let notices := (grown.filter isOpen).map (fun c => (c, OutMsg.userJoined data.username))
    let trigger := if 2 ≤ grown.length then [(grown.headD 0, OutMsg.startWebrtc)] else []
    ({ rooms := setRoom st.rooms k grown, refs := setRef st.refs ws k }, notices ++ trigger)
  | none => (st, [(ws, .errorMsg "Room not found")])

/-- The `webrtc-offer` / `webrtc-answer` / `webrtc-ice` relay branch: forward
the message verbatim to every other open participant of the addressed room;
drop it when the room does not exist. -/
def handleWebrtc (isOpen : Conn → Bool) (ws : Conn) (data : InMsg) (st : ServerState) :
    ServerState × List (Conn × OutMsg) :=
  match lookupRoom st.rooms (jsKey data.roomId) with
  | some l => (st, (l.filter (fun c => c ≠ ws ∧ isOpen c)).map (fun c => (c, OutMsg.forward data)))
  | none => (st, [])

/-- The whole `message` handler: the three `if` blocks of the source run in
sequence on the same state (their conditions are mutually exclusive). -/
def handleMessage (isOpen : Conn → Bool) (ws : Conn) (data : InMsg) (newId : String)
    (st : ServerState) : ServerState × List (Conn × OutMsg) :=
  let r1 := if data.type = "create-room" then handleCreateRoom ws newId st else (st, [])
  let r2 := if data.type = "join-room" then handleJoinRoom isOpen ws data r1.1 else (r1.1, [])
  let r3 := if data.type = "webrtc-offer" ∨ data.type = "webrtc-answer" ∨ data.type = "webrtc-ice"
            then handleWebrtc isOpen ws data r2.1 else (r2.1, [])
  (r3.1, r1.2 ++ r2.2 ++ r3.2)

/-- The `close` handler: when the connection's `roomId` property is set (and
truthy — the empty string is falsy in JS) and that room exists, filter the
connection out of the room's list and delete the room if the list became
empty. -/
def handleClose (ws : Conn) (st : ServerState) : ServerState :=
  match lookupRef st.refs ws with
  | some rid =>
    if rid = "" then st
    else
      match lookupRoom st.rooms rid with
      | some l =>
        if l.filter (fun c => c ≠ ws) = [] then { st with rooms := deleteRoom st.rooms rid }
        else { st with rooms := setRoom st.rooms rid (l.filter (fun c => c ≠ ws)) }
      | none => st
  | none => st

/-!
## Event sequences

For the registry invariants the relay is driven by an arbitrary sequence of
handled events; the per-event open-state of other connections is carried on
the event (it cannot influence the registry, only the sends).
-/

inductive Event where
  | msg (isOpen : Conn → Bool) (ws : Conn) (data : InMsg) (newId : String)
  | close (ws : Conn)

def step (st : ServerState) : Event → ServerState
  | .msg isOpen ws data newId => (handleMessage isOpen ws data newId st).1
  | .close ws => handleClose ws st

def run (st : ServerState) (evs : List Event) : ServerState := evs.foldl step st

/-- Whether a connection currently appears in some room's participant list. -/
def memberAny (st : ServerState) (c : Conn) : Bool :=
  st.rooms.any (fun p => decide (c ∈ p.2))

/-- The guard under which the amended registry invariants hold: `create-room`
and `join-room` are only issued by connections not currently in any room. -/
def guardOK (st : ServerState) : Event → Bool
  | .msg _ ws data _ =>
    if data.type = "create-room" ∨ data.type = "join-room" then !(memberAny st ws) else true
  | .close _ => true

def guardedFrom (st : ServerState) : List Event → Bool
  | [] => true
  | e :: es => guardOK st e && guardedFrom (step st e) es

/-- The registry invariants: room keys are unique, every participant list is
duplicate-free and nonempty, and a connection never sits in two distinct
entries' lists. -/
def RoomsWF (rooms : Rooms) : Prop :=
  (rooms.map Prod.fst).Nodup ∧
  (∀ p ∈ rooms, (p.2 : List Conn).Nodup) ∧
  (∀ p ∈ rooms, ∀ q ∈ rooms, ∀ c : Conn, c ∈ p.2 → c ∈ q.2 → p = q) ∧
  (∀ p ∈ rooms, p.2 ≠ ([] : List Conn))

end Relay

/-!
# Theorems
-/

namespace Stun

/-! ## Arithmetic helpers about the XOR masking -/

theorem xor_byte_lt {a m : Nat} (ha : a < 256) (hm : m < 256) : a ^^^ m < 256 := by
  have h : a ^^^ m < 2 ^ 8 := Nat.xor_lt_two_pow (by simpa using ha) (by simpa using hm)
  simpa using h

theorem xor_byte_roundtrip {b m : Nat} (hb : b < 256) (hm : m < 256) :
    (b ^^^ m) % 256 ^^^ m = b := by
  rw [Nat.mod_eq_of_lt (xor_byte_lt hb hm), Nat.xor_cancel_right]

theorem xorPort_lt {port : Nat} (hp : port < 65536) : xorPort port < 65536 := by
  have h : port ^^^ (MAGIC_COOKIE >>> 16) < 2 ^ 16 :=
    Nat.xor_lt_two_pow (by simpa using hp) (by decide)
  simpa [xorPort] using h

/-- Reading back the XOR'd fields of an encoded XOR-MAPPED-ADDRESS value and
undoing the XOR recovers the original octets and port. -/
theorem decoded_fields_eq (b0 b1 b2 b3 port : Nat)
    (h0 : b0 < 256) (h1 : b1 < 256) (h2 : b2 < 256) (h3 : b3 < 256)
    (hp : port < 65536) :
    String.intercalate "." [toString ((b0 ^^^ 33) % 256 ^^^ magicByte 0),
        toString ((b1 ^^^ 18) % 256 ^^^ magicByte 1),
        toString ((b2 ^^^ 164) % 256 ^^^ magicByte 2),
        toString ((b3 ^^^ 66) % 256 ^^^ magicByte 3)] = ipString b0 b1 b2 b3 ∧
      (xorPort port / 256 % 256 * 256 + xorPort port % 256) ^^^ MAGIC_COOKIE >>> 16 = port := by
  have hx : xorPort port < 65536 := xorPort_lt hp
  refine ⟨?_, ?_⟩
  · have e0 : magicByte 0 = 33 := by decide
    have e1 : magicByte 1 = 18 := by decide
    have e2 : magicByte 2 = 164 := by decide
    have e3 : magicByte 3 = 66 := by decide
    rw [e0, e1, e2, e3, xor_byte_roundtrip h0 (by norm_num), xor_byte_roundtrip h1 (by norm_num),
      xor_byte_roundtrip h2 (by norm_num), xor_byte_roundtrip h3 (by norm_num)]
    rfl
  · have hsplit : xorPort port / 256 % 256 * 256 + xorPort port % 256 = xorPort port := by omega
    rw [hsplit, xorPort, Nat.xor_cancel_right]

/-- C3: for every IPv4 address (four octets each in 0..255) and every 16-bit
port, building a well-formed response whose XOR-MAPPED-ADDRESS attribute
carries those values XOR-masked with the magic constant 0x2112A442 (port
XORed with the high 16 bits, each address octet with the corresponding
constant byte, most-significant first) and decoding it yields exactly the
original IP string and port. -/
theorem c3_xor_mapped_address_roundtrip (b0 b1 b2 b3 port : Nat)
    (h0 : b0 < 256) (h1 : b1 < 256) (h2 : b2 < 256) (h3 : b3 < 256)
    (hp : port < 65536) :
    decodeResponse (encodeResponse b0 b1 b2 b3 port) =
      .ok { ip := ipString b0 b1 b2 b3, port := port } := by
  simp only [decodeResponse, encodeResponse, stunResponseHeader, encodeXorMappedAddress,
    List.replicate, List.cons_append, List.nil_append]
  simp only [readUInt16BE, readUInt8, List.getElem?_cons_zero, List.getElem?_cons_succ]
  norm_num [BINDING_RESPONSE_TYPE]
  rw [decodeXorAddress]
  norm_num [XOR_MAPPED_ADDRESS_TYPE, readUInt16BE, readUInt8, decodeIpBytes,
    List.getElem?_cons_zero, List.getElem?_cons_succ]
  exact decoded_fields_eq b0 b1 b2 b3 port h0 h1 h2 h3 hp

/-- Witness for C3 at a concrete address and port. -/
theorem c3_xor_mapped_address_roundtrip_witness :
    (192 : Nat) < 256 ∧ (168 : Nat) < 256 ∧ (1 : Nat) < 256 ∧ (77 : Nat) < 256 ∧
      (33333 : Nat) < 65536 ∧
      decodeResponse (encodeResponse 192 168 1 77 33333) =
        .ok { ip := ipString 192 168 1 77, port := 33333 } :=
  ⟨by norm_num, by norm_num, by norm_num, by norm_num, by norm_num,
    c3_xor_mapped_address_roundtrip 192 168 1 77 33333
      (by norm_num) (by norm_num) (by norm_num) (by norm_num) (by norm_num)⟩

/-- C4: the attribute walk advances from one TLV attribute to the next by
4 (header) + declared length + padding rounding the length up to a multiple
of 4; in particular a response containing an unrelated attribute of odd
length 3 followed by the XOR-MAPPED-ADDRESS attribute still decodes the
target attribute correctly. -/
theorem c4_attribute_walk_padding :
    (∀ (msg : List Nat) (off t len : Nat), off < msg.length →
       readUInt16BE msg off = .ok t → t ≠ XOR_MAPPED_ADDRESS_TYPE →
       readUInt16BE msg (off + 2) = .ok len →
       decodeXorAddress msg off = decodeXorAddress msg (off + (4 + len + pad4 len))) ∧
    (∀ t0 t1 v0 v1 v2 vp b0 b1 b2 b3 port : Nat,
       t0 < 256 → t1 < 256 → t0 * 256 + t1 ≠ XOR_MAPPED_ADDRESS_TYPE →
       b0 < 256 → b1 < 256 → b2 < 256 → b3 < 256 → port < 65536 →
       decodeResponse (encodeResponseWithExtra t0 t1 v0 v1 v2 vp b0 b1 b2 b3 port) =
         .ok { ip := ipString b0 b1 b2 b3, port := port }) := by
  constructor
  · intro msg off t len hoff h1 ht h2
    rw [decodeXorAddress, dif_pos hoff, h1]
    simp only [h2]
    rw [if_neg ht]
  · intro t0 t1 v0 v1 v2 vp b0 b1 b2 b3 port ht0 ht1 htne h0 h1 h2 h3 hp
    simp only [decodeResponse, encodeResponseWithExtra, stunResponseHeader,
      encodeXorMappedAddress, List.replicate, List.cons_append, List.nil_append]
    simp only [readUInt16BE, readUInt8, List.getElem?_cons_zero, List.getElem?_cons_succ]
    norm_num [BINDING_RESPONSE_TYPE]
    rw [decodeXorAddress]
    norm_num [readUInt16BE, readUInt8, List.getElem?_cons_zero, List.getElem?_cons_succ]
    rw [Nat.mod_eq_of_lt ht0, Nat.mod_eq_of_lt ht1,
      if_neg (by simpa [XOR_MAPPED_ADDRESS_TYPE] using htne)]
    rw [decodeXorAddress]
    norm_num [XOR_MAPPED_ADDRESS_TYPE, readUInt16BE, readUInt8, decodeIpBytes, pad4,
      List.getElem?_cons_zero, List.getElem?_cons_succ]
    exact decoded_fields_eq b0 b1 b2 b3 port h0 h1 h2 h3 hp

/-- Witness for C4: a concrete skip over an odd-length attribute and a concrete
decode past it. -/
theorem c4_attribute_walk_padding_witness :
    ((20 : Nat) < (encodeResponseWithExtra 128 40 9 9 9 0 10 0 0 1 8080).length ∧
      readUInt16BE (encodeResponseWithExtra 128 40 9 9 9 0 10 0 0 1 8080) 20 = .ok 32808 ∧
      (32808 : Nat) ≠ XOR_MAPPED_ADDRESS_TYPE ∧
      readUInt16BE (encodeResponseWithExtra 128 40 9 9 9 0 10 0 0 1 8080) 22 = .ok 3 ∧
      decodeXorAddress (encodeResponseWithExtra 128 40 9 9 9 0 10 0 0 1 8080) 20 =
        decodeXorAddress (encodeResponseWithExtra 128 40 9 9 9 0 10 0 0 1 8080)
          (20 + (4 + 3 + pad4 3))) ∧
    decodeResponse (encodeResponseWithExtra 128 40 9 9 9 0 10 0 0 1 8080) =
      .ok { ip := ipString 10 0 0 1, port := 8080 } :=
  ⟨⟨by decide, by rfl, by decide, by rfl,
    c4_attribute_walk_padding.1 (encodeResponseWithExtra 128 40 9 9 9 0 10 0 0 1 8080)
      20 32808 3 (by decide) (by rfl) (by decide) (by rfl)⟩,
    c4_attribute_walk_padding.2 128 40 9 9 9 0 10 0 0 1 8080
      (by norm_num) (by norm_num) (by decide) (by norm_num) (by norm_num) (by norm_num)
      (by norm_num) (by norm_num)⟩

end Stun

namespace Stun

theorem readUInt8_ok_lt {msg : List Nat} {off v : Nat} (h : readUInt8 msg off = .ok v) :
    v < 256 := by
  unfold readUInt8 at h
  split at h
  · cases h
    exact Nat.mod_lt _ (by norm_num)
  · cases h

theorem readUInt16BE_ok_lt {msg : List Nat} {off v : Nat} (h : readUInt16BE msg off = .ok v) :
    v < 65536 := by
  unfold readUInt16BE at h
  split at h
  · rename_i a b heq1 heq2
    cases h
    have h1 : a % 256 < 256 := Nat.mod_lt _ (by norm_num)
    have h2 : b % 256 < 256 := Nat.mod_lt _ (by norm_num)
    omega
  · cases h

theorem readUInt8_error {msg : List Nat} {off : Nat} {e : StunError}
    (h : readUInt8 msg off = .error e) : e = .rangeError := by
  unfold readUInt8 at h
  split at h
  · cases h
  · cases h; rfl

theorem readUInt16BE_error {msg : List Nat} {off : Nat} {e : StunError}
    (h : readUInt16BE msg off = .error e) : e = .rangeError := by
  unfold readUInt16BE at h
  split at h
  · cases h
  · cases h; rfl

theorem magicByte_lt (i : Nat) : magicByte i < 256 := by
  have h : MAGIC_COOKIE >>> (24 - i * 8) &&& 0xFF ≤ 0xFF := Nat.and_le_right
  simpa [magicByte] using Nat.lt_succ_of_le h

theorem decodeIpBytes_ok {msg : List Nat} {off : Nat} {l : List Nat}
    (h : decodeIpBytes msg off = .ok l) :
    ∃ x0 x1 x2 x3 : Nat, l = [x0, x1, x2, x3] ∧
      x0 < 256 ∧ x1 < 256 ∧ x2 < 256 ∧ x3 < 256 := by
  unfold decodeIpBytes at h
  cases h0 : readUInt8 msg (off + 8) with
  | error e => simp [h0] at h
  | ok e0 =>
  cases h1 : readUInt8 msg (off + 9) with
  | error e => simp [h0, h1] at h
  | ok e1 =>
  cases h2 : readUInt8 msg (off + 10) with
  | error e => simp [h0, h1, h2] at h
  | ok e2 =>
  cases h3 : readUInt8 msg (off + 11) with
  | error e => simp [h0, h1, h2, h3] at h
  | ok e3 =>
    simp only [h0, h1, h2, h3] at h
    cases h
    exact ⟨_, _, _, _, rfl,
      xor_byte_lt (readUInt8_ok_lt h0) (magicByte_lt 0),
      xor_byte_lt (readUInt8_ok_lt h1) (magicByte_lt 1),
      xor_byte_lt (readUInt8_ok_lt h2) (magicByte_lt 2),
      xor_byte_lt (readUInt8_ok_lt h3) (magicByte_lt 3)⟩

theorem decodeIpBytes_error {msg : List Nat} {off : Nat} {e : StunError}
    (h : decodeIpBytes msg off = .error e) : e = .rangeError := by
  unfold decodeIpBytes at h
  cases h0 : readUInt8 msg (off + 8) with
  | error e' => simp only [h0] at h; cases h; exact readUInt8_error h0
  | ok e0 =>
  cases h1 : readUInt8 msg (off + 9) with
  | error e' => simp only [h0, h1] at h; cases h; exact readUInt8_error h1
  | ok e1 =>
  cases h2 : readUInt8 msg (off + 10) with
  | error e' => simp only [h0, h1, h2] at h; cases h; exact readUInt8_error h2
  | ok e2 =>
  cases h3 : readUInt8 msg (off + 11) with
  | error e' => simp only [h0, h1, h2, h3] at h; cases h; exact readUInt8_error h3
  | ok e3 => simp [h0, h1, h2, h3] at h

end Stun

namespace Stun

theorem decodeXorAddress_ok_aux (msg : List Nat) :
    ∀ (n off : Nat) (r : ResolvedAddress), msg.length - off ≤ n →
      decodeXorAddress msg off = .ok r →
      r.port < 65536 ∧ ∃ x0 x1 x2 x3 : Nat, x0 < 256 ∧ x1 < 256 ∧ x2 < 256 ∧ x3 < 256 ∧
        r.ip = ipString x0 x1 x2 x3 := by
  intro n
  induction n with
  | zero =>
    intro off r hle h
    rw [decodeXorAddress, dif_neg (by omega)] at h
    cases h
  | succ n ih =>
    intro off r hle h
    by_cases hoff : off < msg.length
    · rw [decodeXorAddress, dif_pos hoff] at h
      cases hA : readUInt16BE msg off with
      | error e => simp [hA] at h
      | ok attrType =>
      cases hB : readUInt16BE msg (off + 2) with
      | error e => simp [hA, hB] at h
      | ok attrLength =>
      by_cases htype : attrType = XOR_MAPPED_ADDRESS_TYPE
      · simp only [hA, hB, if_pos htype] at h
        cases hF : readUInt8 msg (off + 5) with
        | error e => simp [hF] at h
        | ok fam =>
        cases hX : readUInt16BE msg (off + 6) with
        | error e => simp [hF, hX] at h
        | ok xPort =>
        cases hI : decodeIpBytes msg off with
        | error e => simp [hF, hX, hI] at h
        | ok ipBytes =>
          simp only [hF, hX, hI] at h
          cases h
          obtain ⟨x0, x1, x2, x3, hl, hx0, hx1, hx2, hx3⟩ := decodeIpBytes_ok hI
          subst hl
          constructor
          · have hxp : xPort < 65536 := readUInt16BE_ok_lt hX
            have := Nat.xor_lt_two_pow (x := xPort) (y := MAGIC_COOKIE >>> 16) (n := 16)
              (by simpa using hxp) (by decide)
            simpa using this
          · exact ⟨x0, x1, x2, x3, hx0, hx1, hx2, hx3, by simp [ipString]⟩
      · simp only [hA, hB, if_neg htype] at h
        exact ih _ r (by omega) h
    · rw [decodeXorAddress, dif_neg hoff] at h
      cases h

theorem decodeXorAddress_error_aux (msg : List Nat) :
    ∀ (n off : Nat) (e : StunError), msg.length - off ≤ n →
      decodeXorAddress msg off = .error e →
      e = .attributeNotFound ∨ e = .rangeError := by
  intro n
  induction n with
  | zero =>
    intro off e hle h
    rw [decodeXorAddress, dif_neg (by omega)] at h
    cases h
    exact Or.inl rfl
  | succ n ih =>
    intro off e hle h
    by_cases hoff : off < msg.length
    · rw [decodeXorAddress, dif_pos hoff] at h
      cases hA : readUInt16BE msg off with
      | error e' => simp only [hA] at h; cases h; exact Or.inr (readUInt16BE_error hA)
      | ok attrType =>
      cases hB : readUInt16BE msg (off + 2) with
      | error e' => simp only [hA, hB] at h; cases h; exact Or.inr (readUInt16BE_error hB)
      | ok attrLength =>
      by_cases htype : attrType = XOR_MAPPED_ADDRESS_TYPE
      · simp only [hA, hB, if_pos htype] at h
        cases hF : readUInt8 msg (off + 5) with
        | error e' => simp only [hF] at h; cases h; exact Or.inr (readUInt8_error hF)
        | ok fam =>
        cases hX : readUInt16BE msg (off + 6) with
        | error e' => simp only [hF, hX] at h; cases h; exact Or.inr (readUInt16BE_error hX)
        | ok xPort =>
        cases hI : decodeIpBytes msg off with
        | error e' => simp only [hF, hX, hI] at h; cases h; exact Or.inr (decodeIpBytes_error hI)
        | ok ipBytes => simp [hF, hX, hI] at h
      · simp only [hA, hB, if_neg htype] at h
        exact ih _ e (by omega) h
    · rw [decodeXorAddress, dif_neg hoff] at h
      cases h
      exact Or.inl rfl

end Stun

namespace Stun

theorem decodeXorAddress_attrNF_iff_aux (msg : List Nat) :
    ∀ (n off : Nat), msg.length - off ≤ n →
      (decodeXorAddress msg off = .error .attributeNotFound ↔ WalkExhausts msg off) := by
  intro n
  induction n with
  | zero =>
    intro off hle
    rw [decodeXorAddress, dif_neg (by omega)]
    exact ⟨fun _ => .done off (by omega), fun _ => rfl⟩
  | succ n ih =>
    intro off hle
    by_cases hoff : off < msg.length
    · rw [decodeXorAddress, dif_pos hoff]
      split
      next e hA =>
        constructor
        · intro h
          cases h
          cases readUInt16BE_error hA
        · intro hW
          cases hW with
          | done _ h2 => omega
          | step _ t len _ hr _ _ _ => rw [hA] at hr; cases hr
      next attrType hA =>
      split
      next e hB =>
        constructor
        · intro h
          cases h
          cases readUInt16BE_error hB
        · intro hW
          cases hW with
          | done _ h2 => omega
          | step _ t len _ hr _ hlen _ => rw [hB] at hlen; cases hlen
      next attrLength hB =>
      by_cases htype : attrType = XOR_MAPPED_ADDRESS_TYPE
      · rw [if_pos htype]
        constructor
        · intro h
          cases hF : readUInt8 msg (off + 5) with
          | error e1 => rw [hF] at h; cases h; cases readUInt8_error hF
          | ok fam =>
          cases hX : readUInt16BE msg (off + 6) with
          | error e1 => rw [hF, hX] at h; cases h; cases readUInt16BE_error hX
          | ok xPort =>
          cases hI : decodeIpBytes msg off with
          | error e1 => rw [hF, hX, hI] at h; cases h; cases decodeIpBytes_error hI
          | ok ipBytes => rw [hF, hX, hI] at h; cases h
        · intro hW
          cases hW with
          | done _ h2 => omega
          | step _ t len _ hr ht _ _ =>
            rw [hA] at hr
            cases hr
            exact absurd htype ht
      · rw [if_neg htype]
        have IH := ih (off + (4 + attrLength + pad4 attrLength)) (by omega)
        constructor
        · intro h
          exact .step off attrType attrLength hoff hA htype hB (IH.mp h)
        · intro hW
          cases hW with
          | done _ h2 => omega
          | step _ t len _ hr ht hlen hrec =>
            rw [hA] at hr
            rw [hB] at hlen
            cases hr
            cases hlen
            exact IH.mpr hrec
    · rw [decodeXorAddress, dif_neg hoff]
      exact ⟨fun _ => .done off (by omega), fun _ => rfl⟩

end Stun

namespace Stun

theorem readUInt16BE_zero_of_len {msg : List Nat} (h : 2 ≤ msg.length) :
    readUInt16BE msg 0 = .ok (leadType msg) := by
  have h0 : msg[0]? = some msg[0] := List.getElem?_eq_getElem (by omega)
  have h1 : msg[1]? = some msg[1] := List.getElem?_eq_getElem (by omega)
  rw [readUInt16BE]
  rw [show (0 + 1) = 1 from rfl, h0, h1]
  simp [leadType, h0, h1]

theorem readUInt16BE_zero_short {msg : List Nat} (h : msg.length < 2) :
    readUInt16BE msg 0 = .error .rangeError := by
  have h1 : msg[1]? = none := by
    rw [List.getElem?_eq_none_iff]
    omega
  rw [readUInt16BE, show (0 + 1) = 1 from rfl, h1]
  cases msg[0]? <;> rfl

theorem decodeResponse_eq (msg : List Nat) :
    decodeResponse msg =
      if 2 ≤ msg.length then
        (if leadType msg = BINDING_RESPONSE_TYPE then decodeXorAddress msg 20
         else .error .malformedResponse)
      else .error .rangeError := by
  by_cases hlen : 2 ≤ msg.length
  · rw [decodeResponse, readUInt16BE_zero_of_len hlen, if_pos hlen]
  · rw [decodeResponse, readUInt16BE_zero_short (by omega), if_neg hlen]

/-- C6 (amended): decoding fails with MalformedResponse exactly when the
buffer has a readable leading 16-bit field different from 0x0101; with a
valid leading field it fails with AttributeNotFound exactly when the
attribute walk exhausts the buffer without finding attribute type 0x0020;
every remaining case is a successful ResolvedAddress or an out-of-range
read failure. -/
theorem c6_decode_error_characterisation (buf : List Nat) :
    (decodeResponse buf = .error .malformedResponse ↔
      2 ≤ buf.length ∧ leadType buf ≠ BINDING_RESPONSE_TYPE) ∧
    (decodeResponse buf = .error .attributeNotFound ↔
      2 ≤ buf.length ∧ leadType buf = BINDING_RESPONSE_TYPE ∧ WalkExhausts buf 20) ∧
    (decodeResponse buf = .error .rangeError ∨
      decodeResponse buf = .error .malformedResponse ∨
      decodeResponse buf = .error .attributeNotFound ∨
      ∃ r, decodeResponse buf = .ok r) := by
  refine ⟨?_, ?_, ?_⟩
  · rw [decodeResponse_eq]
    by_cases hlen : 2 ≤ buf.length
    · rw [if_pos hlen]
      by_cases ht : leadType buf = BINDING_RESPONSE_TYPE
      · rw [if_pos ht]
        constructor
        · intro h
          rcases decodeXorAddress_error_aux buf (buf.length - 20) 20 _ (le_refl _) h with h' | h' <;>
            cases h'
        · rintro ⟨-, hne⟩
          exact absurd ht hne
      · rw [if_neg ht]
        exact ⟨fun _ => ⟨hlen, ht⟩, fun _ => rfl⟩
    · rw [if_neg hlen]
      constructor
      · intro h
        cases h
      · rintro ⟨h2, -⟩
        exact absurd h2 hlen
  · rw [decodeResponse_eq]
    by_cases hlen : 2 ≤ buf.length
    · rw [if_pos hlen]
      by_cases ht : leadType buf = BINDING_RESPONSE_TYPE
      · rw [if_pos ht]
        rw [decodeXorAddress_attrNF_iff_aux buf (buf.length - 20) 20 (le_refl _)]
        constructor
        · intro h
          exact ⟨hlen, ht, h⟩
        · rintro ⟨-, -, h⟩
          exact h
      · rw [if_neg ht]
        constructor
        · intro h
          cases h
        · rintro ⟨-, h, -⟩
          exact absurd h ht
    · rw [if_neg hlen]
      constructor
      · intro h
        cases h
      · rintro ⟨h2, -⟩
        exact absurd h2 hlen
  · cases hd : decodeResponse buf with
    | ok r => exact Or.inr (Or.inr (Or.inr ⟨r, rfl⟩))
    | error e =>
      cases e with
      | malformedResponse => exact Or.inr (Or.inl rfl)
      | attributeNotFound => exact Or.inr (Or.inr (Or.inl rfl))
      | rangeError => exact Or.inl rfl

/-- C6 counterexample: a buffer with the valid leading response type followed
by one stray byte after the 20-byte header makes the decoder fail with an
out-of-range read, which is neither MalformedResponse, AttributeNotFound nor
a ResolvedAddress. -/
theorem c6_counterexample :
    decodeResponse ([0x01, 0x01] ++ List.replicate 18 0 ++ [0]) = .error .rangeError ∧
      readUInt16BE ([0x01, 0x01] ++ List.replicate 18 0 ++ [0]) 0 = .ok BINDING_RESPONSE_TYPE := by
  constructor
  · simp [decodeResponse, decodeXorAddress, readUInt16BE, List.replicate, BINDING_RESPONSE_TYPE]
  · rfl

/-- C9: whenever response decoding succeeds, the returned port is in
0..65535 and the returned ip is a dotted quad of four integers each in
0..255. -/
theorem c9_decoded_ranges (buf : List Nat) (r : ResolvedAddress)
    (h : decodeResponse buf = .ok r) :
    r.port < 65536 ∧ ∃ x0 x1 x2 x3 : Nat, x0 < 256 ∧ x1 < 256 ∧ x2 < 256 ∧ x3 < 256 ∧
      r.ip = ipString x0 x1 x2 x3 := by
  rw [decodeResponse_eq] at h
  by_cases hlen : 2 ≤ buf.length
  · rw [if_pos hlen] at h
    by_cases ht : leadType buf = BINDING_RESPONSE_TYPE
    · rw [if_pos ht] at h
      exact decodeXorAddress_ok_aux buf (buf.length - 20) 20 r (le_refl _) h
    · rw [if_neg ht] at h
      cases h
  · rw [if_neg hlen] at h
    cases h

/-- Witness for C9 at a concrete successfully-decoded buffer. -/
theorem c9_decoded_ranges_witness :
    decodeResponse (encodeResponse 192 168 1 77 33333) =
        .ok { ip := ipString 192 168 1 77, port := 33333 } ∧
      ({ ip := ipString 192 168 1 77, port := 33333 } : ResolvedAddress).port < 65536 ∧
      ∃ x0 x1 x2 x3 : Nat, x0 < 256 ∧ x1 < 256 ∧ x2 < 256 ∧ x3 < 256 ∧
        ({ ip := ipString 192 168 1 77, port := 33333 } : ResolvedAddress).ip =
          ipString x0 x1 x2 x3 :=
  ⟨c3_xor_mapped_address_roundtrip_witness.2.2.2.2.2,
    c9_decoded_ranges (encodeResponse 192 168 1 77 33333) _
      c3_xor_mapped_address_roundtrip_witness.2.2.2.2.2⟩

end Stun

namespace Stun

theorem stepClient_first (e : StunEvent) :
    stepClient initClient e =
      { isClosed := true, closeCalls := 1, settled := some (eventOutcome e) } := by
  cases e with
  | message buf =>
    cases hd : decodeResponse buf with
    | ok r => simp [stepClient, hd, eventOutcome, closeSocket, settle, initClient]
    | error e1 => simp [stepClient, hd, eventOutcome, closeSocket, settle, initClient]
  | socketError => simp [stepClient, eventOutcome, closeSocket, settle, initClient]
  | timeout => simp [stepClient, eventOutcome, closeSocket, settle, initClient]

theorem stepClient_stable (s : ClientState) (e : StunEvent) (o : StunOutcome)
    (h1 : s.isClosed = true) (h2 : s.settled = some o) : stepClient s e = s := by
  cases e with
  | message buf =>
    cases hd : decodeResponse buf with
    | ok r => simp [stepClient, hd, closeSocket, settle, h1, h2]
    | error e1 => simp [stepClient, hd, closeSocket, settle, h1, h2]
  | socketError => simp [stepClient, closeSocket, settle, h1, h2]
  | timeout => simp [stepClient, closeSocket, settle, h1, h2]

theorem foldl_stepClient_stable (rest : List StunEvent) (s : ClientState) (o : StunOutcome)
    (h1 : s.isClosed = true) (h2 : s.settled = some o) : rest.foldl stepClient s = s := by
  induction rest with
  | nil => rfl
  | cons e rest ih => rw [List.foldl_cons, stepClient_stable s e o h1 h2, ih]

/-- C5: over any nonempty sequence of terminal events processed by the
single-threaded event loop, the first event settles the transaction with its
own outcome, every later event is a no-op, and `socket.close()` runs exactly
once over the whole sequence. -/
theorem c5_terminal_events_once (e : StunEvent) (rest : List StunEvent) :
    (runClient (e :: rest)).closeCalls = 1 ∧
      (runClient (e :: rest)).settled = some (eventOutcome e) := by
  have hrun : runClient (e :: rest) =
      { isClosed := true, closeCalls := 1, settled := some (eventOutcome e) } := by
    rw [runClient, List.foldl_cons, stepClient_first e]
    exact foldl_stepClient_stable rest _ (eventOutcome e) rfl rfl
  rw [hrun]
  exact ⟨rfl, rfl⟩

end Stun

namespace Relay

theorem handleMessage_create (isOpen : Conn → Bool) (ws : Conn) (data : InMsg) (newId : String)
    (st : ServerState) (htype : data.type = "create-room") :
    handleMessage isOpen ws data newId st = handleCreateRoom ws newId st := by
  simp [handleMessage, htype]

theorem handleMessage_join (isOpen : Conn → Bool) (ws : Conn) (data : InMsg) (newId : String)
    (st : ServerState) (htype : data.type = "join-room") :
    handleMessage isOpen ws data newId st = handleJoinRoom isOpen ws data st := by
  simp [handleMessage, htype]

theorem handleMessage_webrtc (isOpen : Conn → Bool) (ws : Conn) (data : InMsg) (newId : String)
    (st : ServerState)
    (htype : data.type = "webrtc-offer" ∨ data.type = "webrtc-answer" ∨ data.type = "webrtc-ice") :
    handleMessage isOpen ws data newId st = handleWebrtc isOpen ws data st := by
  rcases htype with h | h | h <;> simp [handleMessage, h]

theorem handleMessage_other (isOpen : Conn → Bool) (ws : Conn) (data : InMsg) (newId : String)
    (st : ServerState)
    (htype : data.type ∉ ["create-room", "join-room", "webrtc-offer", "webrtc-answer", "webrtc-ice"]) :
    handleMessage isOpen ws data newId st = (st, []) := by
  simp only [List.mem_cons, List.mem_singleton, not_or] at htype
  obtain ⟨h1, h2, h3, h4, h5⟩ := htype
  simp [handleMessage, h1, h2, h3, h4, h5]

end Relay

namespace Relay

theorem filter_startWebrtc_of_userJoined (xs : List Conn) (u : Option String) :
    ((xs.map (fun c => (c, OutMsg.userJoined u))).filter
      (fun p => decide (p.2 = OutMsg.startWebrtc))) = [] := by
  induction xs with
  | nil => rfl
  | cons c xs ih => simp [ih]

/-- C8: a join-room request naming an unknown room id elicits exactly one
error reply to the sender and leaves the whole state (registry and
back-references) unchanged. -/
theorem c8_join_unknown_room (isOpen : Conn → Bool) (ws : Conn) (newId : String)
    (st : ServerState) (rid : String) (username : Option String)
    (h : lookupRoom st.rooms rid = none) :
    handleMessage isOpen ws ⟨"join-room", some rid, username⟩ newId st =
      (st, [(ws, .errorMsg "Room not found")]) := by
  rw [handleMessage_join _ _ _ _ _ rfl]
  simp [handleJoinRoom, jsKey, h]

/-- Witness for C8 at a concrete state and room id. -/
theorem c8_join_unknown_room_witness :
    lookupRoom initialState.rooms "missing-room" = none ∧
      handleMessage (fun _ => true) 1 ⟨"join-room", some "missing-room", some "bob"⟩ "n"
          initialState =
        (initialState, [(1, .errorMsg "Room not found")]) :=
  ⟨rfl, c8_join_unknown_room (fun _ => true) 1 "n" initialState "missing-room" (some "bob") rfl⟩

/-- C10: relaying a webrtc-offer / webrtc-answer / webrtc-ice message never
changes the registry or the back-references, whether or not the room exists. -/
theorem c10_webrtc_preserves_registry (isOpen : Conn → Bool) (ws : Conn) (newId : String)
    (st : ServerState) (data : InMsg)
    (h : data.type = "webrtc-offer" ∨ data.type = "webrtc-answer" ∨ data.type = "webrtc-ice") :
    (handleMessage isOpen ws data newId st).1 = st := by
  rw [handleMessage_webrtc _ _ _ _ _ h]
  unfold handleWebrtc
  split <;> rfl

/-- Witness for C10 at a concrete state and message. -/
theorem c10_webrtc_preserves_registry_witness :
    ((⟨"webrtc-ice", some "roomA", none⟩ : InMsg).type = "webrtc-offer" ∨
      (⟨"webrtc-ice", some "roomA", none⟩ : InMsg).type = "webrtc-answer" ∨
      (⟨"webrtc-ice", some "roomA", none⟩ : InMsg).type = "webrtc-ice") ∧
    (handleMessage (fun _ => true) 1 ⟨"webrtc-ice", some "roomA", none⟩ "n"
        ⟨[("roomA", [1, 2])], [(1, "roomA"), (2, "roomA")]⟩).1 =
      ⟨[("roomA", [1, 2])], [(1, "roomA"), (2, "roomA")]⟩ :=
  ⟨Or.inr (Or.inr rfl),
    c10_webrtc_preserves_registry (fun _ => true) 1 "n"
      ⟨[("roomA", [1, 2])], [(1, "roomA"), (2, "roomA")]⟩ ⟨"webrtc-ice", some "roomA", none⟩
      (Or.inr (Or.inr rfl))⟩

/-- C7 (amended): an unrecognized message type is ignored outright; a
negotiation message with a missing roomId is dropped (when no room is
literally named "undefined"); but a join-room with a missing roomId is
treated as a join to an unknown room and elicits a "Room not found" error
reply to the sender — in all three cases the state is unchanged. -/
theorem c7_malformed_messages (isOpen : Conn → Bool) (ws : Conn) (newId : String)
    (st : ServerState) (data : InMsg) :
    (data.type ∉ ["create-room", "join-room", "webrtc-offer", "webrtc-answer", "webrtc-ice"] →
       handleMessage isOpen ws data newId st = (st, [])) ∧
    ((data.type = "webrtc-offer" ∨ data.type = "webrtc-answer" ∨ data.type = "webrtc-ice") →
       data.roomId = none → lookupRoom st.rooms "undefined" = none →
       handleMessage isOpen ws data newId st = (st, [])) ∧
    (data.type = "join-room" → data.roomId = none → lookupRoom st.rooms "undefined" = none →
       handleMessage isOpen ws data newId st = (st, [(ws, .errorMsg "Room not found")])) := by
  refine ⟨fun h => handleMessage_other isOpen ws data newId st h, ?_, ?_⟩
  · intro htype hroom hnone
    rw [handleMessage_webrtc _ _ _ _ _ htype]
    simp [handleWebrtc, jsKey, hroom, hnone]
  · intro htype hroom hnone
    rw [handleMessage_join _ _ _ _ _ htype]
    simp [handleJoinRoom, jsKey, hroom, hnone]

/-- Witness for C7 (amended) at concrete malformed messages. -/
theorem c7_malformed_messages_witness :
    handleMessage (fun _ => true) 1 ⟨"ping", none, none⟩ "n" initialState =
        (initialState, []) ∧
      handleMessage (fun _ => true) 1 ⟨"webrtc-offer", none, none⟩ "n" initialState =
        (initialState, []) ∧
      handleMessage (fun _ => true) 1 ⟨"join-room", none, none⟩ "n" initialState =
        (initialState, [(1, .errorMsg "Room not found")]) :=
  ⟨(c7_malformed_messages (fun _ => true) 1 "n" initialState ⟨"ping", none, none⟩).1
      (by decide),
    (c7_malformed_messages (fun _ => true) 1 "n" initialState ⟨"webrtc-offer", none, none⟩).2.1
      (Or.inl rfl) rfl rfl,
    (c7_malformed_messages (fun _ => true) 1 "n" initialState ⟨"join-room", none, none⟩).2.2
      rfl rfl rfl⟩

/-- C7 counterexample: a join-room whose roomId field is missing is a
malformed message, yet the relay does send an error notice to the sender
rather than dropping it silently. -/
theorem c7_counterexample :
    (handleMessage (fun _ => true) 1 ⟨"join-room", none, none⟩ "n" initialState).2 =
      [(1, OutMsg.errorMsg "Room not found")] := by
  decide

/-- C1 (amended): on a successful join, start-webrtc is emitted exactly when
the room's participant count after the join is at least two — not exactly
two — and it goes to the first participant of the grown list and only to
that participant. -/
theorem c1_start_webrtc_trigger (isOpen : Conn → Bool) (ws : Conn) (data : InMsg)
    (newId : String) (st : ServerState) (l : List Conn)
    (htype : data.type = "join-room")
    (hroom : lookupRoom st.rooms (jsKey data.roomId) = some l) :
    ((handleMessage isOpen ws data newId st).2.filter
        (fun p => decide (p.2 = OutMsg.startWebrtc))) =
      if 2 ≤ l.length + 1 then [((l ++ [ws]).headD 0, OutMsg.startWebrtc)] else [] := by
  rw [handleMessage_join _ _ _ _ _ htype]
  simp only [handleJoinRoom, hroom]
  simp only [List.filter_append, filter_startWebrtc_of_userJoined, List.nil_append]
  by_cases hlen : 2 ≤ l.length + 1
  · rw [if_pos (by simpa using hlen), if_pos hlen]
    rfl
  · rw [if_neg (by simpa using hlen), if_neg hlen]
    rfl

/-- Witness for C1 (amended): second joiner triggers start-webrtc to the
creator. -/
theorem c1_start_webrtc_trigger_witness :
    ((⟨"join-room", some "roomA", some "bob"⟩ : InMsg).type = "join-room" ∧
      lookupRoom (⟨[("roomA", [1])], [(1, "roomA")]⟩ : ServerState).rooms
        (jsKey (some "roomA")) = some [1]) ∧
    ((handleMessage (fun _ => true) 2 ⟨"join-room", some "roomA", some "bob"⟩ "n"
          ⟨[("roomA", [1])], [(1, "roomA")]⟩).2.filter
        (fun p => decide (p.2 = OutMsg.startWebrtc))) =
      if 2 ≤ [1].length + 1 then [(([1] ++ [2]).headD 0, OutMsg.startWebrtc)] else [] :=
  ⟨⟨rfl, rfl⟩,
    c1_start_webrtc_trigger (fun _ => true) 2 ⟨"join-room", some "roomA", some "bob"⟩ "n"
      ⟨[("roomA", [1])], [(1, "roomA")]⟩ [1] rfl rfl⟩

/-- C1 counterexample: a third participant joining a two-member room brings
the count to three, yet the relay still sends start-webrtc to the first
participant, contradicting the claim that only a count of exactly two
triggers it. -/
theorem c1_counterexample :
    lookupRoom ((handleMessage (fun _ => true) 3 ⟨"join-room", some "roomA", some "carol"⟩ "n"
        ⟨[("roomA", [1, 2])], [(1, "roomA"), (2, "roomA")]⟩).1).rooms "roomA" =
        some [1, 2, 3] ∧
      (1, OutMsg.startWebrtc) ∈
        (handleMessage (fun _ => true) 3 ⟨"join-room", some "roomA", some "carol"⟩ "n"
          ⟨[("roomA", [1, 2])], [(1, "roomA"), (2, "roomA")]⟩).2 := by
  decide

end Relay

namespace Relay

theorem lookupRoom_mem {rooms : Rooms} {k : String} {l : List Conn}
    (h : lookupRoom rooms k = some l) : (k, l) ∈ rooms := by
  induction rooms with
  | nil => cases h
  | cons p rest ih =>
    obtain ⟨k', l'⟩ := p
    rw [lookupRoom] at h
    by_cases hk : k' = k
    · rw [if_pos hk] at h
      cases h
      subst hk
      exact List.mem_cons_self _ _
    · rw [if_neg hk] at h
      exact List.mem_cons_of_mem _ (ih h)

theorem mem_keys_setRoom {rooms : Rooms} {k a : String} {l : List Conn}
    (h : a ∈ (setRoom rooms k l).map Prod.fst) : a ∈ rooms.map Prod.fst ∨ a = k := by
  induction rooms with
  | nil =>
    simp [setRoom] at h
    exact Or.inr h
  | cons p rest ih =>
    obtain ⟨k', l'⟩ := p
    rw [setRoom] at h
    by_cases hk : k' = k
    · rw [if_pos hk] at h
      rcases List.mem_map.1 h with ⟨q, hq, rfl⟩
      rcases List.mem_cons.1 hq with rfl | hq'
      · exact Or.inr rfl
      · exact Or.inl (List.mem_map_of_mem _ (List.mem_cons_of_mem _ hq'))
    · rw [if_neg hk] at h
      rcases List.mem_map.1 h with ⟨q, hq, rfl⟩
      rcases List.mem_cons.1 hq with rfl | hq'
      · exact Or.inl (List.mem_map_of_mem _ (List.mem_cons_self _ _))
      · rcases ih (List.mem_map_of_mem _ hq') with h' | h'
        · rcases List.mem_map.1 h' with ⟨q2, hq2, he⟩
          exact Or.inl (he ▸ List.mem_map_of_mem _ (List.mem_cons_of_mem _ hq2))
        · exact Or.inr h'

theorem keysNodup_setRoom {rooms : Rooms} {k : String} {l : List Conn}
    (h : (rooms.map Prod.fst).Nodup) : ((setRoom rooms k l).map Prod.fst).Nodup := by
  induction rooms with
  | nil => simp [setRoom]
  | cons p rest ih =>
    obtain ⟨k', l'⟩ := p
    rw [List.map_cons, List.nodup_cons] at h
    rw [setRoom]
    by_cases hk : k' = k
    · rw [if_pos hk]
      rw [List.map_cons, List.nodup_cons]
      exact ⟨hk ▸ h.1, h.2⟩
    · rw [if_neg hk]
      rw [List.map_cons, List.nodup_cons]
      refine ⟨fun hmem => ?_, ih h.2⟩
      rcases mem_keys_setRoom hmem with h' | h'
      · exact h.1 h'
      · exact hk h'

theorem mem_setRoom {rooms : Rooms} {k : String} {l : List Conn} {p : String × List Conn}
    (hkeys : (rooms.map Prod.fst).Nodup) (h : p ∈ setRoom rooms k l) :
    p = (k, l) ∨ (p ∈ rooms ∧ p.1 ≠ k) := by
  induction rooms with
  | nil =>
    simp [setRoom] at h
    exact Or.inl h
  | cons q rest ih =>
    obtain ⟨k', l'⟩ := q
    rw [List.map_cons, List.nodup_cons] at hkeys
    rw [setRoom] at h
    by_cases hk : k' = k
    · rw [if_pos hk] at h
      rcases List.mem_cons.1 h with rfl | h'
      · exact Or.inl rfl
      · refine Or.inr ⟨List.mem_cons_of_mem _ h', fun hpk => ?_⟩
        have hmem : p.1 ∈ rest.map Prod.fst := List.mem_map_of_mem _ h'
        rw [hpk, ← hk] at hmem
        exact hkeys.1 hmem
    · rw [if_neg hk] at h
      rcases List.mem_cons.1 h with rfl | h'
      · exact Or.inr ⟨List.mem_cons_self _ _, hk⟩
      · rcases ih hkeys.2 h' with h'' | h''
        · exact Or.inl h''
        · exact Or.inr ⟨List.mem_cons_of_mem _ h''.1, h''.2⟩

theorem deleteRoom_sublist (rooms : Rooms) (k : String) : (deleteRoom rooms k).Sublist rooms := by
  induction rooms with
  | nil => simp [deleteRoom]
  | cons q rest ih =>
    obtain ⟨k', l'⟩ := q
    rw [deleteRoom]
    by_cases hk : k' = k
    · rw [if_pos hk]
      exact List.sublist_cons_self _ _
    · rw [if_neg hk]
      exact ih.cons₂ _

theorem RoomsWF_setRoom {rooms : Rooms} {k : String} {l' : List Conn}
    (hwf : RoomsWF rooms) (hnd : l'.Nodup) (hne : l' ≠ [])
    (hdisj : ∀ p ∈ rooms, p.1 ≠ k → ∀ c ∈ l', c ∉ p.2) :
    RoomsWF (setRoom rooms k l') := by
  obtain ⟨hkeys, hnodup, hpair, hnonempty⟩ := hwf
  refine ⟨keysNodup_setRoom hkeys, ?_, ?_, ?_⟩
  · intro p hp
    rcases mem_setRoom hkeys hp with rfl | ⟨hp', -⟩
    · exact hnd
    · exact hnodup p hp'
  · intro p hp q hq c hcp hcq
    rcases mem_setRoom hkeys hp with rfl | ⟨hp', hpk⟩ <;>
      rcases mem_setRoom hkeys hq with h2 | ⟨hq', hqk⟩
    · rw [h2]
    · exact absurd hcq (hdisj q hq' hqk c hcp)
    · rw [h2] at hcq
      exact absurd hcp (hdisj p hp' hpk c hcq)
    · exact hpair p hp' q hq' c hcp hcq
  · intro p hp
    rcases mem_setRoom hkeys hp with rfl | ⟨hp', -⟩
    · exact hne
    · exact hnonempty p hp'

theorem RoomsWF_deleteRoom {rooms : Rooms} {k : String} (hwf : RoomsWF rooms) :
    RoomsWF (deleteRoom rooms k) := by
  obtain ⟨hkeys, hnodup, hpair, hnonempty⟩ := hwf
  have hsub := deleteRoom_sublist rooms k
  refine ⟨hkeys.sublist (hsub.map Prod.fst), ?_, ?_, ?_⟩
  · intro p hp
    exact hnodup p (hsub.subset hp)
  · intro p hp q hq c hcp hcq
    exact hpair p (hsub.subset hp) q (hsub.subset hq) c hcp hcq
  · intro p hp
    exact hnonempty p (hsub.subset hp)

theorem handleWebrtc_state (isOpen : Conn → Bool) (ws : Conn) (data : InMsg)
    (st : ServerState) : (handleWebrtc isOpen ws data st).1 = st := by
  unfold handleWebrtc
  split <;> rfl

theorem memberAny_false {st : ServerState} {c : Conn} (h : memberAny st c = false) :
    ∀ p ∈ st.rooms, c ∉ p.2 := by
  intro p hp
  rw [memberAny, List.any_eq_false] at h
  simpa using h p hp

theorem stepWF (st : ServerState) (e : Event) (hwf : RoomsWF st.rooms)
    (hg : guardOK st e = true) : RoomsWF (step st e).rooms := by
  cases e with
  | msg isOpen ws data newId =>
    rw [step]
    by_cases hc : data.type = "create-room"
    · have hmem : memberAny st ws = false := by
        rw [guardOK, if_pos (Or.inl hc)] at hg
        simpa using hg
      have hnotin := memberAny_false hmem
      rw [handleMessage_create _ _ _ _ _ hc]
      refine RoomsWF_setRoom hwf (List.nodup_singleton ws) (by simp) ?_
      intro p hp _ c hcm
      rcases List.mem_singleton.1 hcm with rfl
      exact hnotin p hp
    · by_cases hj : data.type = "join-room"
      · have hmem : memberAny st ws = false := by
          rw [guardOK, if_pos (Or.inr hj)] at hg
          simpa using hg
        have hnotin := memberAny_false hmem
        rw [handleMessage_join _ _ _ _ _ hj]
        cases hlook : lookupRoom st.rooms (jsKey data.roomId) with
        | none =>
          simp only [handleJoinRoom, hlook]
          exact hwf
        | some l =>
          simp only [handleJoinRoom, hlook]
          have hkl : (jsKey data.roomId, l) ∈ st.rooms := lookupRoom_mem hlook
          have hlnd : l.Nodup := hwf.2.1 _ hkl
          have hwsl : ws ∉ l := hnotin _ hkl
          refine RoomsWF_setRoom hwf ?_ (by simp) ?_
          · refine hlnd.append (List.nodup_singleton ws) ?_
            intro a ha hb
            rcases List.mem_singleton.1 hb with rfl
            exact hwsl ha
          · intro p hp hpk c hcm hcp
            rcases List.mem_append.1 hcm with hcl | hcw
            · exact hpk (congrArg Prod.fst (hwf.2.2.1 p hp _ hkl c hcp hcl))
            · rcases List.mem_singleton.1 hcw with rfl
              exact hnotin p hp hcp
      · by_cases hw : data.type = "webrtc-offer" ∨ data.type = "webrtc-answer" ∨
            data.type = "webrtc-ice"
        · rw [handleMessage_webrtc _ _ _ _ _ hw, handleWebrtc_state]
          exact hwf
        · rw [handleMessage_other _ _ _ _ _ (by simp [hc, hj]; tauto)]
          exact hwf
  | close ws =>
    rw [step]
    unfold handleClose
    split
    next rid href =>
      by_cases hrid : rid = ""
      · rw [if_pos hrid]
        exact hwf
      · rw [if_neg hrid]
        split
        next l hlook =>
          have hkl : (rid, l) ∈ st.rooms := lookupRoom_mem hlook
          by_cases hemp : l.filter (fun c => c ≠ ws) = []
          · rw [if_pos hemp]
            exact RoomsWF_deleteRoom hwf
          · rw [if_neg hemp]
            refine RoomsWF_setRoom hwf ((hwf.2.1 _ hkl).filter _) hemp ?_
            intro p hp hpk c hcm hcp
            exact hpk (congrArg Prod.fst (hwf.2.2.1 p hp _ hkl c hcp (List.mem_of_mem_filter hcm)))
        next hlook => exact hwf
    next href => exact hwf

theorem runWF (evs : List Event) :
    ∀ st : ServerState, RoomsWF st.rooms → guardedFrom st evs = true →
      RoomsWF (run st evs).rooms := by
  induction evs with
  | nil =>
    intro st h _
    exact h
  | cons e evs ih =>
    intro st h hg
    rw [guardedFrom, Bool.and_eq_true] at hg
    exact ih (step st e) (stepWF st e h hg.1) hg.2

/-- C2 (amended): provided every create-room and join-room is issued by a
connection that is not currently in any room's participant list, then after
any sequence of handled events each connection appears in at most one
room's list, no list contains a connection twice, and no emptied room
survives the operation that emptied it (together with unique room keys:
`RoomsWF`). -/
theorem c2_registry_invariants (evs : List Event)
    (h : guardedFrom initialState evs = true) :
    RoomsWF (run initialState evs).rooms :=
  runWF evs initialState ⟨List.nodup_nil, by simp [initialState], by simp [initialState],
    by simp [initialState]⟩ h

/-- Witness for C2 (amended) on a concrete guarded event sequence: create,
join by a second connection, then the creator disconnects. -/
theorem c2_registry_invariants_witness :
    guardedFrom initialState
        [.msg (fun _ => true) 1 ⟨"create-room", none, none⟩ "roomA",
         .msg (fun _ => true) 2 ⟨"join-room", some "roomA", some "bob"⟩ "roomB",
         .close 1] = true ∧
      RoomsWF (run initialState
        [.msg (fun _ => true) 1 ⟨"create-room", none, none⟩ "roomA",
         .msg (fun _ => true) 2 ⟨"join-room", some "roomA", some "bob"⟩ "roomB",
         .close 1]).rooms :=
  ⟨by decide,
    c2_registry_invariants
      [.msg (fun _ => true) 1 ⟨"create-room", none, none⟩ "roomA",
       .msg (fun _ => true) 2 ⟨"join-room", some "roomA", some "bob"⟩ "roomB",
       .close 1] (by decide)⟩

/-- C2 counterexample: a connection that joins the very room it just created
(an unguarded sequence) ends up twice in that room's participant list, so
the claimed invariant fails for arbitrary event sequences. -/
theorem c2_counterexample :
    ∃ p ∈ (run initialState
        [.msg (fun _ => true) 1 ⟨"create-room", none, none⟩ "roomA",
         .msg (fun _ => true) 1 ⟨"join-room", some "roomA", some "bob"⟩ "roomB"]).rooms,
      ¬ (p.2 : List Conn).Nodup := by
  decide

end Relay


